import Mathlib

/-!
Verification of the polls application core (`polls/views.py`):
question listing queries (index, all, popular, detail, results) and the
vote recorder. The relational store is embedded as explicit lists of
rows; ORM query chains (`annotate`, `exclude`, `filter`, `order_by`,
slicing) become list operations; `timezone.now()` becomes an explicit
integer parameter `now`.
-/

namespace Polls

/-- A poll question row. Modelled from the spec: the model file itself is
not among the sources; the spec gives identifier, text and publication
timestamp (`pub_date`), the timestamp modelled as an integer. -/
structure Question where
  id : Nat
  question_text : String
  pub_date : Int
deriving Repr, DecidableEq

/-- A choice row. Modelled from the spec: the model file itself is not
among the sources; the spec gives identifier, owning question (foreign
key), text and a non-negative integer vote count (default 0). Votes are
modelled as `Int` so that non-negativity is a provable invariant rather
than a typing assumption. -/
structure Choice where
  id : Nat
  question_id : Nat
  choice_text : String
  votes : Int
deriving Repr, DecidableEq

/-- The relational store backing the views: all question rows and all
choice rows. -/
structure Store where
  questions : List Question
  choices : List Choice
deriving Repr, DecidableEq

/-- `question.choice_set`: the choice rows whose foreign key points at
the question. -/
def choiceSet (s : Store) (q : Question) : List Choice :=
  s.choices.filter (fun c => c.question_id = q.id)

/-- `annotate(choice_cnt=Count('choice'))`: the number of choices joined
to the question. -/
def choice_cnt (s : Store) (q : Question) : Nat :=
  (choiceSet s q).length

/-- `annotate(votes=Sum('choice__votes'))`: the sum of the vote counts of
the question's choices. -/
def votesSum (s : Store) (q : Question) : Int :=
  ((choiceSet s q).map (fun c => c.votes)).sum

/-- Insert into a list kept descending by `key`, stably (an earlier row
stays ahead of later rows with an equal key). -/
def insertDescBy (key : Question → Int) (x : Question) : List Question → List Question
  | [] => [x]
  | y :: ys => if key y ≤ key x then x :: y :: ys else y :: insertDescBy key x ys

/-- Stable insertion sort, descending by `key`: the model of
`order_by('-k')`. -/
def sortDescBy (key : Question → Int) : List Question → List Question
  | [] => []
  | x :: xs => insertDescBy key x (sortDescBy key xs)

/-- The common filter chain of every view:
`annotate(choice_cnt=Count('choice')).exclude(choice_cnt=0).filter(pub_date__lte=timezone.now())`. -/
def eligibleQuestions (s : Store) (now : Int) : List Question :=
  (s.questions.filter (fun q => ¬ choice_cnt s q = 0)).filter (fun q => q.pub_date ≤ now)

/-- `IndexView.get_queryset`: eligible questions ordered by `-pub_date`,
first five. -/
def IndexView.get_queryset (s : Store) (now : Int) : List Question :=
  (sortDescBy (fun q => q.pub_date)
    ((s.questions.filter (fun q => ¬ choice_cnt s q = 0)).filter (fun q => q.pub_date ≤ now))).take 5

/-- `DetailView.get_queryset`: eligible questions (no order, no limit). -/
def DetailView.get_queryset (s : Store) (now : Int) : List Question :=
  (s.questions.filter (fun q => ¬ choice_cnt s q = 0)).filter (fun q => q.pub_date ≤ now)

/-- `DetailView` resolved at a primary key: the framework fetches the
object with that pk from `get_queryset`, signalling not-found (`none`,
an HTTP 404) when no such row passes the filter. -/
def DetailView.get_object (s : Store) (now : Int) (pk : Nat) : Option Question :=
  (DetailView.get_queryset s now).find? (fun q => q.id = pk)

/-- `ResultsView.get_queryset`: identical filter to `DetailView`. -/
def ResultsView.get_queryset (s : Store) (now : Int) : List Question :=
  (s.questions.filter (fun q => ¬ choice_cnt s q = 0)).filter (fun q => q.pub_date ≤ now)

/-- `ResultsView` resolved at a primary key. -/
def ResultsView.get_object (s : Store) (now : Int) (pk : Nat) : Option Question :=
  (ResultsView.get_queryset s now).find? (fun q => q.id = pk)

/-- `AllQuestionsView.get_queryset`: eligible questions ordered by
`-pub_date`, unlimited. -/
def AllQuestionsView.get_queryset (s : Store) (now : Int) : List Question :=
  sortDescBy (fun q => q.pub_date)
    ((s.questions.filter (fun q => ¬ choice_cnt s q = 0)).filter (fun q => q.pub_date ≤ now))

/-- `PopularView.get_queryset`: eligible questions ordered by the
annotated vote sum descending, first five. -/
def PopularView.get_queryset (s : Store) (now : Int) : List Question :=
  (sortDescBy (fun q => votesSum s q)
    ((s.questions.filter (fun q => ¬ choice_cnt s q = 0)).filter (fun q => q.pub_date ≤ now))).take 5

/-- Failure of `question.choice_set.get(pk=...)`: no matching row, or
more than one (the latter raises `MultipleObjectsReturned`, which the
`vote` handler does not catch). -/
inductive GetError where
  | doesNotExist
  | multipleObjectsReturned
deriving Repr, DecidableEq

/-- `question.choice_set.get(pk=cid)`: the single choice of the question
with the given pk, `doesNotExist` when there is none,
`multipleObjectsReturned` when there are several. -/
def choice_set_get (s : Store) (q : Question) (cid : Nat) : Except GetError Choice :=
  match (choiceSet s q).filter (fun c => c.id = cid) with
  | [] => Except.error GetError.doesNotExist
  | [c] => Except.ok c
  | _ => Except.error GetError.multipleObjectsReturned

/-- The error message rendered with the re-displayed voting form. -/
def noChoiceMessage : String := "You didn\x27t select a choice."

/-- Outcome of the `vote` handler: `notFound` is the `Http404` raised by
`get_object_or_404`; `invalidSelection` re-renders `polls/detail.html`
for the question with an error message; `redirectToResults` is the
redirect to `polls:results` for the question; `uncaughtException` is an
exception escaping the handler. -/
inductive VoteOutcome where
  | notFound
  | invalidSelection (question_id : Nat) (error_message : String)
  | redirectToResults (question_id : Nat)
  | uncaughtException
deriving Repr, DecidableEq

/-- The `vote` handler. `postChoice` is `request.POST['choice']`
(`none` models the missing key, raising `KeyError`). On success the
matched choice's stored vote count is updated by the relative operation
`votes = F('votes') + 1` and the handler redirects to the results view. -/
def vote (s : Store) (question_id : Nat) (postChoice : Option Nat) : Store × VoteOutcome :=
  match s.questions.find? (fun q => q.id = question_id) with
  | none => (s, VoteOutcome.notFound)
  | some question =>
    match postChoice with
    | none => (s, VoteOutcome.invalidSelection question.id noChoiceMessage)
    | some cid =>
      match choice_set_get s question cid with
      | Except.error GetError.doesNotExist =>
          (s, VoteOutcome.invalidSelection question.id noChoiceMessage)
      | Except.error GetError.multipleObjectsReturned =>
          (s, VoteOutcome.uncaughtException)
      | Except.ok selected =>
          ({ s with
              choices := s.choices.map (fun c =>
                if c.id = selected.id then { c with votes := c.votes + 1 } else c) },
           VoteOutcome.redirectToResults question.id)

/-- The stored vote count of the choice row with the given pk, when one
exists. -/
def votesOf (s : Store) (cid : Nat) : Option Int :=
  (s.choices.find? (fun c => c.id = cid)).map (fun c => c.votes)

/-- Invariant: every stored vote count is non-negative. -/
def VotesNonneg (s : Store) : Prop :=
  ∀ c ∈ s.choices, 0 ≤ c.votes

/-- The ordering contract the popular view delegates to the data store:
an output list is admissible when it is the first five of some
rearrangement of the eligible questions that is descending in the
annotated vote sum. `order_by('-votes')` fixes no order between rows
with equal sums, so any such rearrangement may be returned. -/
def popularAdmissible (s : Store) (now : Int) (l : List Question) : Prop :=
  ∃ m : List Question, m.Perm (eligibleQuestions s now) ∧
    m.Pairwise (fun a b => votesSum s b ≤ votesSum s a) ∧
    l = m.take 5

/-- The ordering contract of `order_by('-pub_date')[:5]` for the index
view: an admissible latest output is the first five of some
rearrangement of the eligible questions that is descending in
publication timestamp. `order_by` fixes no order between rows with
equal timestamps. -/
def latestAdmissible (s : Store) (now : Int) (l : List Question) : Prop :=
  ∃ m : List Question, m.Perm (eligibleQuestions s now) ∧
    m.Pairwise (fun a b => b.pub_date ≤ a.pub_date) ∧
    l = m.take 5

/-- The ordering contract of `order_by('-pub_date')` for the
all-questions view: any rearrangement of the eligible questions that is
descending in publication timestamp, with no cap. -/
def allAdmissible (s : Store) (now : Int) (l : List Question) : Prop :=
  l.Perm (eligibleQuestions s now) ∧
  l.Pairwise (fun a b => b.pub_date ≤ a.pub_date)

/-- Inserting permutes: the inserted element joins the list. -/
theorem insertDescBy_perm (key : Question → Int) (x : Question) :
    ∀ l : List Question, (insertDescBy key x l).Perm (x :: l)
  | [] => List.Perm.refl _
  | y :: ys => by
    by_cases h : key y ≤ key x
    · simp only [insertDescBy, if_pos h]
      exact List.Perm.refl _
    · simp only [insertDescBy, if_neg h]
      exact (List.Perm.cons y (insertDescBy_perm key x ys)).trans (List.Perm.swap x y ys)

/-- Sorting permutes. -/
theorem sortDescBy_perm (key : Question → Int) :
    ∀ l : List Question, (sortDescBy key l).Perm l
  | [] => List.Perm.refl _
  | x :: xs =>
    (insertDescBy_perm key x (sortDescBy key xs)).trans
      (List.Perm.cons x (sortDescBy_perm key xs))

/-- Membership is preserved by the sort. -/
theorem mem_sortDescBy {key : Question → Int} {l : List Question} {a : Question} :
    a ∈ sortDescBy key l ↔ a ∈ l :=
  (sortDescBy_perm key l).mem_iff

/-- Inserting into a list descending by `key` keeps it descending. -/
theorem pairwise_insertDescBy (key : Question → Int) (x : Question) :
    ∀ l : List Question, l.Pairwise (fun a b => key b ≤ key a) →
      (insertDescBy key x l).Pairwise (fun a b => key b ≤ key a) := by
  intro l
  induction l with
  | nil =>
    intro _
    simp [insertDescBy]
  | cons y ys ih =>
    intro h
    rcases List.pairwise_cons.mp h with ⟨hy, hys⟩
    by_cases hxy : key y ≤ key x
    · simp only [insertDescBy, if_pos hxy]
      refine List.pairwise_cons.mpr ⟨?_, h⟩
      intro z hz
      rcases List.mem_cons.mp hz with rfl | hz
      · exact hxy
      · exact le_trans (hy z hz) hxy
    · simp only [insertDescBy, if_neg hxy]
      refine List.pairwise_cons.mpr ⟨?_, ih hys⟩
      intro z hz
      rcases List.mem_cons.mp ((insertDescBy_perm key x ys).mem_iff.mp hz) with rfl | hz
      · exact le_of_lt (lt_of_not_le hxy)
      · exact hy z hz

/-- The sort output is descending by `key`. -/
theorem sortDescBy_pairwise (key : Question → Int) :
    ∀ l : List Question, (sortDescBy key l).Pairwise (fun a b => key b ≤ key a) := by
  intro l
  induction l with
  | nil => simp [sortDescBy]
  | cons x xs ih =>
    simp only [sortDescBy]
    exact pairwise_insertDescBy key x _ ih

/-- Primary-key lookup in a table with no duplicate keys finds exactly
the member row. -/
theorem find?_key_of_nodup {α : Type} (key : α → Nat) :
    ∀ l : List α, (l.map key).Nodup → ∀ c ∈ l,
      l.find? (fun x => key x = key c) = some c := by
  intro l
  induction l with
  | nil =>
    intro _ c hc
    simp at hc
  | cons x xs ih =>
    intro hnd c hc
    rw [List.map_cons, List.nodup_cons] at hnd
    rcases List.mem_cons.mp hc with rfl | hc
    · simp [List.find?_cons]
    · have hne : ¬ (key x = key c) := by
        intro he
        exact hnd.1 (he ▸ List.mem_map_of_mem key hc)
      rw [List.find?_cons, decide_eq_false hne]
      exact ih hnd.2 c hc

/-- Unfolding of membership in the shared filter chain. -/
theorem mem_eligibleQuestions {s : Store} {now : Int} {q : Question} :
    q ∈ eligibleQuestions s now ↔
      q ∈ s.questions ∧ choice_cnt s q ≠ 0 ∧ q.pub_date ≤ now := by
  simp only [eligibleQuestions, List.mem_filter, decide_eq_true_eq]
  tauto

/-- The index queryset is the sorted eligible list, capped at five. -/
theorem IndexView_queryset_eq (s : Store) (now : Int) :
    IndexView.get_queryset s now =
      (sortDescBy (fun q => q.pub_date) (eligibleQuestions s now)).take 5 := rfl

/-- The all-questions queryset is the sorted eligible list. -/
theorem AllQuestionsView_queryset_eq (s : Store) (now : Int) :
    AllQuestionsView.get_queryset s now =
      sortDescBy (fun q => q.pub_date) (eligibleQuestions s now) := rfl

/-- The popular queryset is the eligible list sorted by vote sum, capped
at five. -/
theorem PopularView_queryset_eq (s : Store) (now : Int) :
    PopularView.get_queryset s now =
      (sortDescBy (fun q => votesSum s q) (eligibleQuestions s now)).take 5 := rfl

/-- The detail queryset is the eligible list. -/
theorem DetailView_queryset_eq (s : Store) (now : Int) :
    DetailView.get_queryset s now = eligibleQuestions s now := rfl

/-- The results queryset is the eligible list. -/
theorem ResultsView_queryset_eq (s : Store) (now : Int) :
    ResultsView.get_queryset s now = eligibleQuestions s now := rfl

/-- `vote` when the question id matches no row: `get_object_or_404`
raises `Http404`. -/
theorem vote_find_none {s : Store} {qid : Nat} {pc : Option Nat}
    (h : s.questions.find? (fun q => q.id = qid) = none) :
    vote s qid pc = (s, VoteOutcome.notFound) := by
  unfold vote
  rw [h]

/-- `vote` when the question exists but the form omits a choice. -/
theorem vote_post_missing {s : Store} {qid : Nat} {q : Question}
    (hq : s.questions.find? (fun x => x.id = qid) = some q) :
    vote s qid none = (s, VoteOutcome.invalidSelection q.id noChoiceMessage) := by
  unfold vote
  rw [hq]

/-- `vote` when the submitted choice id matches no choice of the
question. -/
theorem vote_get_dne {s : Store} {qid cid : Nat} {q : Question}
    (hq : s.questions.find? (fun x => x.id = qid) = some q)
    (hget : choice_set_get s q cid = Except.error GetError.doesNotExist) :
    vote s qid (some cid) = (s, VoteOutcome.invalidSelection q.id noChoiceMessage) := by
  simp only [vote, hq, hget]

/-- `vote` when the submitted choice id matches exactly one choice of the
question: the relative increment is applied to the row with that pk. -/
theorem vote_get_ok {s : Store} {qid cid : Nat} {q : Question} {c : Choice}
    (hq : s.questions.find? (fun x => x.id = qid) = some q)
    (hget : choice_set_get s q cid = Except.ok c) :
    vote s qid (some cid) =
      ({ s with
          choices := s.choices.map (fun x =>
            if x.id = c.id then { x with votes := x.votes + 1 } else x) },
       VoteOutcome.redirectToResults q.id) := by
  simp only [vote, hq, hget]

/-- `choice_set.get` succeeds exactly on a singleton match. -/
theorem choice_set_get_ok {s : Store} {q : Question} {cid : Nat} {c : Choice}
    (hc : (choiceSet s q).filter (fun x => x.id = cid) = [c]) :
    choice_set_get s q cid = Except.ok c := by
  unfold choice_set_get
  rw [hc]

/-- `choice_set.get` raises `DoesNotExist` on an empty match. -/
theorem choice_set_get_dne {s : Store} {q : Question} {cid : Nat}
    (hc : (choiceSet s q).filter (fun x => x.id = cid) = []) :
    choice_set_get s q cid = Except.error GetError.doesNotExist := by
  unfold choice_set_get
  rw [hc]

/-- Looking up by pk commutes with a pk-preserving row update. -/
theorem find?_id_map_of_id_preserving (f : Choice → Choice)
    (hf : ∀ y, (f y).id = y.id) (k : Nat) :
    ∀ l : List Choice,
      (l.map f).find? (fun y => y.id = k) = (l.find? (fun y => y.id = k)).map f := by
  intro l
  induction l with
  | nil => simp
  | cons y ys ih =>
    rw [List.map_cons, List.find?_cons, List.find?_cons]
    by_cases h : y.id = k
    · rw [decide_eq_true (show (f y).id = k by rw [hf]; exact h), decide_eq_true h]
      simp
    · rw [decide_eq_false (show ¬ (f y).id = k by rw [hf]; exact h), decide_eq_false h, ih]

/-- `vote` when the submitted choice id matches several choices of the
question: `MultipleObjectsReturned` escapes the handler. -/
theorem vote_get_multi {s : Store} {qid cid : Nat} {q : Question}
    (hq : s.questions.find? (fun x => x.id = qid) = some q)
    (hget : choice_set_get s q cid = Except.error GetError.multipleObjectsReturned) :
    vote s qid (some cid) = (s, VoteOutcome.uncaughtException) := by
  simp only [vote, hq, hget]

/-- A successful vote: redirect with the question's id, questions
untouched, the matched choice incremented by one relative to its stored
value, every other choice untouched. -/
theorem vote_increments (s : Store) (qid cid : Nat) (q : Question) (c : Choice)
    (hnodup : (s.choices.map (fun x => x.id)).Nodup)
    (hq : s.questions.find? (fun x => x.id = qid) = some q)
    (hc : (choiceSet s q).filter (fun x => x.id = cid) = [c]) :
    (vote s qid (some cid)).2 = VoteOutcome.redirectToResults q.id ∧
    (vote s qid (some cid)).1.questions = s.questions ∧
    votesOf (vote s qid (some cid)).1 c.id = some (c.votes + 1) ∧
    ∀ x ∈ s.choices, x.id ≠ c.id →
      votesOf (vote s qid (some cid)).1 x.id = some x.votes := by
  have hv := vote_get_ok hq (choice_set_get_ok hc)
  have hcmem : c ∈ s.choices := by
    have h1 : c ∈ (choiceSet s q).filter (fun x => x.id = cid) := by
      rw [hc]
      exact List.mem_singleton.mpr rfl
    exact List.mem_of_mem_filter (List.mem_of_mem_filter h1)
  have hf : ∀ y : Choice,
      ((fun x => if x.id = c.id then { x with votes := x.votes + 1 } else x) y).id = y.id := by
    intro y
    by_cases h : y.id = c.id <;> simp [h]
  refine ⟨by rw [hv], by rw [hv], ?_, ?_⟩
  · rw [hv]
    simp only [votesOf]
    rw [find?_id_map_of_id_preserving _ hf c.id s.choices,
        find?_key_of_nodup (fun x => x.id) s.choices hnodup c hcmem]
    simp
  · intro x hx hne
    rw [hv]
    simp only [votesOf]
    rw [find?_id_map_of_id_preserving _ hf x.id s.choices,
        find?_key_of_nodup (fun x => x.id) s.choices hnodup x hx]
    simp [hne]

/-- A question known not to pass the filter is not found by a pk lookup
over the filtered queryset (question pks are unique). -/
theorem find?_eligible_none (s : Store) (now : Int) (q : Question)
    (hqnodup : (s.questions.map (fun x => x.id)).Nodup)
    (hq : q ∈ s.questions) (hnot : q ∉ eligibleQuestions s now) :
    (eligibleQuestions s now).find? (fun x => x.id = q.id) = none := by
  rw [List.find?_eq_none]
  intro x hx
  simp only [decide_eq_true_eq]
  intro hxid
  have hxq : x = q :=
    List.inj_on_of_nodup_map hqnodup (mem_eligibleQuestions.mp hx).1 hq hxid
  exact hnot (hxq ▸ hx)

/-- C1: voting with a choice that belongs to the question increments that
choice's stored vote count by exactly one, as a relative update against
the stored value, leaves every other choice's count and the question
table unchanged, and signals success carrying the question's identifier
(the redirect to that question's results). -/
theorem C1_record_vote_valid_choice (s : Store) (qid cid : Nat) (q : Question) (c : Choice)
    (hnodup : (s.choices.map (fun x => x.id)).Nodup)
    (hq : s.questions.find? (fun x => x.id = qid) = some q)
    (hc : (choiceSet s q).filter (fun x => x.id = cid) = [c]) :
    (vote s qid (some cid)).2 = VoteOutcome.redirectToResults q.id ∧
    (vote s qid (some cid)).1.questions = s.questions ∧
    votesOf (vote s qid (some cid)).1 c.id = some (c.votes + 1) ∧
    ∀ x ∈ s.choices, x.id ≠ c.id →
      votesOf (vote s qid (some cid)).1 x.id = some x.votes :=
  vote_increments s qid cid q c hnodup hq hc

/-- C1 witness: a concrete store on which the valid-vote theorem is
instantiated and its hypotheses discharged by evaluation. -/
theorem C1_record_vote_valid_choice_witness :
    (vote (Store.mk [Question.mk 1 "" 0] [Choice.mk 7 1 "" 3, Choice.mk 8 1 "" 5]) 1
        (some 7)).2 = VoteOutcome.redirectToResults 1 ∧
    votesOf (vote (Store.mk [Question.mk 1 "" 0] [Choice.mk 7 1 "" 3, Choice.mk 8 1 "" 5]) 1
        (some 7)).1 7 = some 4 := by
  have h := C1_record_vote_valid_choice
    (Store.mk [Question.mk 1 "" 0] [Choice.mk 7 1 "" 3, Choice.mk 8 1 "" 5]) 1 7
    (Question.mk 1 "" 0) (Choice.mk 7 1 "" 3) (by decide) (by rfl) (by rfl)
  exact ⟨h.1, h.2.2.1⟩

/-- C2: a vote submission that omits the choice identifier, or names a
choice that does not belong to the question, leaves the store unchanged
and signals invalid-selection, re-rendering the voting form with the
explanatory message; no exception escapes the handler. -/
theorem C2_record_vote_invalid_choice (s : Store) (qid : Nat) (q : Question)
    (pc : Option Nat)
    (hq : s.questions.find? (fun x => x.id = qid) = some q)
    (hpc : pc = none ∨ ∃ cid, pc = some cid ∧ ∀ c ∈ choiceSet s q, c.id ≠ cid) :
    (vote s qid pc).1 = s ∧
    (vote s qid pc).2 = VoteOutcome.invalidSelection q.id noChoiceMessage := by
  rcases hpc with rfl | ⟨cid, rfl, hforeign⟩
  · rw [vote_post_missing hq]
    exact ⟨rfl, rfl⟩
  · have hfil : (choiceSet s q).filter (fun x => x.id = cid) = [] := by
      rw [List.filter_eq_nil_iff]
      intro a ha
      simpa using hforeign a ha
    rw [vote_get_dne hq (choice_set_get_dne hfil)]
    exact ⟨rfl, rfl⟩

/-- C2 witness: the invalid-vote theorem instantiated at a concrete
store, once with a missing choice and once with a foreign choice. -/
theorem C2_record_vote_invalid_choice_witness :
    (vote (Store.mk [Question.mk 1 "" 0, Question.mk 2 "" 0]
        [Choice.mk 7 1 "" 3, Choice.mk 9 2 "" 4]) 1 (some 9)).1 =
      Store.mk [Question.mk 1 "" 0, Question.mk 2 "" 0]
        [Choice.mk 7 1 "" 3, Choice.mk 9 2 "" 4] ∧
    (vote (Store.mk [Question.mk 1 "" 0, Question.mk 2 "" 0]
        [Choice.mk 7 1 "" 3, Choice.mk 9 2 "" 4]) 1 (some 9)).2 =
      VoteOutcome.invalidSelection 1 noChoiceMessage :=
  C2_record_vote_invalid_choice
    (Store.mk [Question.mk 1 "" 0, Question.mk 2 "" 0]
      [Choice.mk 7 1 "" 3, Choice.mk 9 2 "" 4]) 1 (Question.mk 1 "" 0) (some 9)
    (by rfl) (Or.inr ⟨9, rfl, by decide⟩)

/-- C3: the popular listing returns at most five questions; every entry
is published and owns at least one choice; entries are descending in the
sum of their choices' votes; and a question whose choices all carry zero
votes is still eligible, its sum being zero. -/
theorem C3_popular_sorted_capped (s : Store) (now : Int) :
    (PopularView.get_queryset s now).length ≤ 5 ∧
    (∀ q ∈ PopularView.get_queryset s now,
      q ∈ s.questions ∧ choice_cnt s q ≠ 0 ∧ q.pub_date ≤ now) ∧
    (PopularView.get_queryset s now).Pairwise
      (fun a b => votesSum s b ≤ votesSum s a) ∧
    (∀ q ∈ s.questions, choice_cnt s q ≠ 0 → q.pub_date ≤ now →
      q ∈ eligibleQuestions s now ∧
      ((∀ c ∈ choiceSet s q, c.votes = 0) → votesSum s q = 0)) := by
  refine ⟨?_, ?_, ?_, ?_⟩
  · rw [PopularView_queryset_eq]
    exact List.length_take_le 5 _
  · intro q hq
    rw [PopularView_queryset_eq] at hq
    exact mem_eligibleQuestions.mp (mem_sortDescBy.mp (List.mem_of_mem_take hq))
  · rw [PopularView_queryset_eq]
    exact List.Pairwise.sublist (List.take_sublist 5 _)
      (sortDescBy_pairwise (fun q => votesSum s q) _)
  · intro q hq hcnt hpub
    refine ⟨mem_eligibleQuestions.mpr ⟨hq, hcnt, hpub⟩, ?_⟩
    intro hz
    apply List.sum_eq_zero
    intro v hv
    rcases List.mem_map.mp hv with ⟨c, hcmem, rfl⟩
    exact hz c hcmem

/-- C3 witness: the popular-listing theorem instantiated on a concrete
store, with the all-zero-votes eligibility conjunct discharged there. -/
theorem C3_popular_sorted_capped_witness :
    Question.mk 1 "" 0 ∈
      eligibleQuestions (Store.mk [Question.mk 1 "" 0] [Choice.mk 7 1 "" 0]) 0 ∧
    votesSum (Store.mk [Question.mk 1 "" 0] [Choice.mk 7 1 "" 0]) (Question.mk 1 "" 0) = 0 :=
  (C3_popular_sorted_capped (Store.mk [Question.mk 1 "" 0] [Choice.mk 7 1 "" 0]) 0).2.2.2
    (Question.mk 1 "" 0) (by decide) (by decide) (by decide)
    |>.imp id (fun h => h (by decide))

/-- C4: a question owning zero choices appears in none of the listings,
and the detail and results lookups at its identifier signal not-found. -/
theorem C4_choiceless_excluded (s : Store) (now : Int) (q : Question)
    (hqnodup : (s.questions.map (fun x => x.id)).Nodup)
    (hq : q ∈ s.questions) (hzero : choiceSet s q = []) :
    q ∉ IndexView.get_queryset s now ∧
    q ∉ AllQuestionsView.get_queryset s now ∧
    q ∉ PopularView.get_queryset s now ∧
    DetailView.get_object s now q.id = none ∧
    ResultsView.get_object s now q.id = none := by
  have hcnt : choice_cnt s q = 0 := by
    unfold choice_cnt
    rw [hzero]
    rfl
  have helig : q ∉ eligibleQuestions s now := by
    intro h
    exact (mem_eligibleQuestions.mp h).2.1 hcnt
  have hnone := find?_eligible_none s now q hqnodup hq helig
  refine ⟨?_, ?_, ?_, hnone, hnone⟩
  · intro h
    rw [IndexView_queryset_eq] at h
    exact helig (mem_sortDescBy.mp (List.mem_of_mem_take h))
  · intro h
    rw [AllQuestionsView_queryset_eq] at h
    exact helig (mem_sortDescBy.mp h)
  · intro h
    rw [PopularView_queryset_eq] at h
    exact helig (mem_sortDescBy.mp (List.mem_of_mem_take h))

/-- C4 witness: the choiceless-question theorem instantiated on a
concrete store. -/
theorem C4_choiceless_excluded_witness :
    DetailView.get_object (Store.mk [Question.mk 1 "" 0, Question.mk 2 "" 0]
      [Choice.mk 7 2 "" 0]) 0 1 = none :=
  (C4_choiceless_excluded (Store.mk [Question.mk 1 "" 0, Question.mk 2 "" 0]
    [Choice.mk 7 2 "" 0]) 0 (Question.mk 1 "" 0) (by decide) (by decide) (by decide)).2.2.2.1

/-- C5: a question whose publication timestamp is strictly in the future
appears in none of the listings, and the detail and results lookups at
its identifier signal not-found. -/
theorem C5_future_excluded (s : Store) (now : Int) (q : Question)
    (hqnodup : (s.questions.map (fun x => x.id)).Nodup)
    (hq : q ∈ s.questions) (hfuture : now < q.pub_date) :
    q ∉ IndexView.get_queryset s now ∧
    q ∉ AllQuestionsView.get_queryset s now ∧
    q ∉ PopularView.get_queryset s now ∧
    DetailView.get_object s now q.id = none ∧
    ResultsView.get_object s now q.id = none := by
  have helig : q ∉ eligibleQuestions s now := by
    intro h
    exact absurd (mem_eligibleQuestions.mp h).2.2 (not_le.mpr hfuture)
  have hnone := find?_eligible_none s now q hqnodup hq helig
  refine ⟨?_, ?_, ?_, hnone, hnone⟩
  · intro h
    rw [IndexView_queryset_eq] at h
    exact helig (mem_sortDescBy.mp (List.mem_of_mem_take h))
  · intro h
    rw [AllQuestionsView_queryset_eq] at h
    exact helig (mem_sortDescBy.mp h)
  · intro h
    rw [PopularView_queryset_eq] at h
    exact helig (mem_sortDescBy.mp (List.mem_of_mem_take h))

/-- C5 witness: the future-question theorem instantiated on a concrete
store. -/
theorem C5_future_excluded_witness :
    ResultsView.get_object (Store.mk [Question.mk 1 "" 9] [Choice.mk 7 1 "" 0]) 0 1 = none :=
  (C5_future_excluded (Store.mk [Question.mk 1 "" 9] [Choice.mk 7 1 "" 0]) 0
    (Question.mk 1 "" 9) (by decide) (by decide) (by decide)).2.2.2.2

/-- C6: the latest listing returns at most five questions, each
published and owning at least one choice, in descending order of
publication timestamp. -/
theorem C6_latest_sorted_capped (s : Store) (now : Int) :
    (IndexView.get_queryset s now).length ≤ 5 ∧
    (∀ q ∈ IndexView.get_queryset s now,
      q ∈ s.questions ∧ choice_cnt s q ≠ 0 ∧ q.pub_date ≤ now) ∧
    (IndexView.get_queryset s now).Pairwise
      (fun a b => b.pub_date ≤ a.pub_date) := by
  refine ⟨?_, ?_, ?_⟩
  · rw [IndexView_queryset_eq]
    exact List.length_take_le 5 _
  · intro q hq
    rw [IndexView_queryset_eq] at hq
    exact mem_eligibleQuestions.mp (mem_sortDescBy.mp (List.mem_of_mem_take hq))
  · rw [IndexView_queryset_eq]
    exact List.Pairwise.sublist (List.take_sublist 5 _)
      (sortDescBy_pairwise (fun q => q.pub_date) _)

/-- C6 witness: the latest-listing theorem instantiated on a concrete
store, extracting the filter facts for a returned question. -/
theorem C6_latest_sorted_capped_witness :
    Question.mk 1 "" 0 ∈ (Store.mk [Question.mk 1 "" 0] [Choice.mk 7 1 "" 0]).questions ∧
    choice_cnt (Store.mk [Question.mk 1 "" 0] [Choice.mk 7 1 "" 0]) (Question.mk 1 "" 0) ≠ 0 ∧
    (Question.mk 1 "" 0).pub_date ≤ 0 :=
  (C6_latest_sorted_capped (Store.mk [Question.mk 1 "" 0] [Choice.mk 7 1 "" 0]) 0).2.1
    (Question.mk 1 "" 0) (by decide)

/-- C8: starting from a store whose vote counts are all non-negative,
the vote handler (the only mutation in the core; every listing and
lookup is a pure read of the store) leaves every vote count
non-negative, in each of its outcomes. -/
theorem C8_votes_nonneg_preserved (s : Store) (qid : Nat) (pc : Option Nat)
    (h : VotesNonneg s) : VotesNonneg (vote s qid pc).1 := by
  cases hfind : s.questions.find? (fun x => x.id = qid) with
  | none =>
    rw [vote_find_none hfind]
    exact h
  | some q =>
    cases pc with
    | none =>
      rw [vote_post_missing hfind]
      exact h
    | some cid =>
      cases hget : choice_set_get s q cid with
      | error e =>
        cases e with
        | doesNotExist =>
          rw [vote_get_dne hfind hget]
          exact h
        | multipleObjectsReturned =>
          rw [vote_get_multi hfind hget]
          exact h
      | ok c =>
        rw [vote_get_ok hfind hget]
        intro x hx
        rcases List.mem_map.mp hx with ⟨y, hy, rfl⟩
        by_cases hid : y.id = c.id
        · rw [if_pos hid]
          show 0 ≤ y.votes + 1
          have h0 := h y hy
          omega
        · rw [if_neg hid]
          exact h y hy

/-- C8 witness: the invariant-preservation theorem instantiated on a
concrete store and successful vote. -/
theorem C8_votes_nonneg_preserved_witness :
    VotesNonneg (vote (Store.mk [Question.mk 1 "" 0] [Choice.mk 7 1 "" 0]) 1 (some 7)).1 :=
  C8_votes_nonneg_preserved (Store.mk [Question.mk 1 "" 0] [Choice.mk 7 1 "" 0]) 1 (some 7)
    (by unfold VotesNonneg; decide)

/-- C9: the vote handler signals not-found exactly when no question row
carries the submitted identifier; it applies no publication or
has-choice filter, so a future-dated question still accepts a vote on
its own choice, incrementing it and redirecting, even though the detail
and results lookups for the same identifier signal not-found. -/
theorem C9_vote_unfiltered (s : Store) (now : Int) (qid : Nat) :
    (∀ pc : Option Nat, ((vote s qid pc).2 = VoteOutcome.notFound ↔
      s.questions.find? (fun x => x.id = qid) = none)) ∧
    (∀ (q : Question) (c : Choice) (cid : Nat),
      (s.questions.map (fun x => x.id)).Nodup →
      (s.choices.map (fun x => x.id)).Nodup →
      s.questions.find? (fun x => x.id = qid) = some q →
      now < q.pub_date →
      (choiceSet s q).filter (fun x => x.id = cid) = [c] →
      (vote s qid (some cid)).2 = VoteOutcome.redirectToResults q.id ∧
      votesOf (vote s qid (some cid)).1 c.id = some (c.votes + 1) ∧
      DetailView.get_object s now qid = none ∧
      ResultsView.get_object s now qid = none) := by
  constructor
  · intro pc
    cases hfind : s.questions.find? (fun x => x.id = qid) with
    | none =>
      rw [vote_find_none hfind]
      simp
    | some q =>
      cases pc with
      | none =>
        rw [vote_post_missing hfind]
        simp
      | some cid =>
        cases hget : choice_set_get s q cid with
        | error e =>
          cases e with
          | doesNotExist =>
            rw [vote_get_dne hfind hget]
            simp
          | multipleObjectsReturned =>
            rw [vote_get_multi hfind hget]
            simp
        | ok c =>
          rw [vote_get_ok hfind hget]
          simp
  · intro q c cid hqnodup hcnodup hfind hfuture hc
    have hqid : q.id = qid := by
      simpa using List.find?_some hfind
    have hqmem : q ∈ s.questions := List.mem_of_find?_eq_some hfind
    have helig : q ∉ eligibleQuestions s now := by
      intro h
      exact absurd (mem_eligibleQuestions.mp h).2.2 (not_le.mpr hfuture)
    have hnone := find?_eligible_none s now q hqnodup hqmem helig
    have hinc := vote_increments s qid cid q c hcnodup hfind hc
    rw [hqid] at hnone
    exact ⟨hinc.1, hinc.2.2.1, hnone, hnone⟩

/-- C9 witness: a concrete store with one future-dated question: its
vote succeeds and increments while detail signals not-found. -/
theorem C9_vote_unfiltered_witness :
    (vote (Store.mk [Question.mk 1 "" 9] [Choice.mk 7 1 "" 2]) 1 (some 7)).2 =
      VoteOutcome.redirectToResults 1 ∧
    votesOf (vote (Store.mk [Question.mk 1 "" 9] [Choice.mk 7 1 "" 2]) 1 (some 7)).1 7 =
      some 3 ∧
    DetailView.get_object (Store.mk [Question.mk 1 "" 9] [Choice.mk 7 1 "" 2]) 0 1 = none :=
  ((C9_vote_unfiltered (Store.mk [Question.mk 1 "" 9] [Choice.mk 7 1 "" 2]) 0 1).2
    (Question.mk 1 "" 9) (Choice.mk 7 1 "" 2) 7 (by decide) (by decide) (by rfl)
    (by decide) (by rfl)).imp id (fun h => ⟨h.1, h.2.1⟩)

/-- Two rearrangements of one base list, both descending in a key that
is pairwise distinct on the base, coincide. -/
theorem sorted_perm_unique (key : Question → Int) (base m1 m2 : List Question)
    (hdist : base.Pairwise (fun a b => key a ≠ key b))
    (p1 : m1.Perm base) (p2 : m2.Perm base)
    (s1 : m1.Pairwise (fun a b => key b ≤ key a))
    (s2 : m2.Pairwise (fun a b => key b ≤ key a)) : m1 = m2 := by
  have hm : m1.Perm m2 := p1.trans p2.symm
  have hd1 : m1.Pairwise (fun a b => key a ≠ key b) :=
    (p1.pairwise_iff (fun h => Ne.symm h)).mpr hdist
  have hd2 : m2.Pairwise (fun a b => key a ≠ key b) :=
    (p2.pairwise_iff (fun h => Ne.symm h)).mpr hdist
  have hs1 : m1.Pairwise (fun a b => key b < key a) :=
    (s1.and hd1).imp (fun h => lt_of_le_of_ne h.1 (Ne.symm h.2))
  have hs2 : m2.Pairwise (fun a b => key b < key a) :=
    (s2.and hd2).imp (fun h => lt_of_le_of_ne h.1 (Ne.symm h.2))
  have hanti : ∀ a b : Question, (key b < key a ∨ a = b) →
      (key a < key b ∨ b = a) → a = b := by
    intro a b hab hba
    rcases hab with hab | rfl
    · rcases hba with hba | rfl
      · exact absurd hba (not_lt.mpr (le_of_lt hab))
      · rfl
    · rfl
  have hr1 : List.Sorted (fun a b => key b < key a ∨ a = b) m1 :=
    hs1.imp (fun h => Or.inl h)
  have hr2 : List.Sorted (fun a b => key b < key a ∨ a = b) m2 :=
    hs2.imp (fun h => Or.inl h)
  haveI : IsAntisymm Question (fun a b => key b < key a ∨ a = b) := ⟨hanti⟩
  exact List.eq_of_perm_of_sorted hm hr1 hr2

/-- C10 counterexample: with two eligible questions sharing a
publication timestamp, the ordering contract of `order_by('-pub_date')`
lets the two independent queries order the tie differently, so an
admissible latest output need not equal the first five of an admissible
all output. -/
theorem C10_latest_all_counterexample :
    ¬ (∀ l1 l2 : List Question,
        latestAdmissible (Store.mk [Question.mk 1 "" 0, Question.mk 2 "" 0]
          [Choice.mk 7 1 "" 0, Choice.mk 8 2 "" 0]) 0 l1 →
        allAdmissible (Store.mk [Question.mk 1 "" 0, Question.mk 2 "" 0]
          [Choice.mk 7 1 "" 0, Choice.mk 8 2 "" 0]) 0 l2 →
        l1 = l2.take 5) := by
  intro hdet
  have h12 := hdet [Question.mk 1 "" 0, Question.mk 2 "" 0]
      [Question.mk 2 "" 0, Question.mk 1 "" 0]
      ⟨[Question.mk 1 "" 0, Question.mk 2 "" 0], by decide, by decide, rfl⟩
      ⟨by decide, by decide⟩
  exact absurd h12 (by decide)

/-- C10 amended: the index and all-questions views share the same filter
chain and the same descending publication-timestamp ordering contract
and differ only in the size cap: both computed querysets satisfy the
contract; a list is an admissible latest output exactly when it is the
first five of an admissible all output; and when the eligible questions
carry pairwise distinct publication timestamps, every admissible latest
output equals the first five of every admissible all output. With tied
timestamps the two independent queries need not agree on tie order. -/
theorem C10_latest_refines_all (s : Store) (now : Int) :
    latestAdmissible s now (IndexView.get_queryset s now) ∧
    allAdmissible s now (AllQuestionsView.get_queryset s now) ∧
    (∀ l : List Question, latestAdmissible s now l ↔
      ∃ m : List Question, allAdmissible s now m ∧ l = m.take 5) ∧
    (∀ l m : List Question,
      (eligibleQuestions s now).Pairwise (fun a b => a.pub_date ≠ b.pub_date) →
      latestAdmissible s now l → allAdmissible s now m → l = m.take 5) := by
  refine ⟨?_, ?_, ?_, ?_⟩
  · exact ⟨sortDescBy (fun q => q.pub_date) (eligibleQuestions s now),
      sortDescBy_perm _ _, sortDescBy_pairwise _ _, IndexView_queryset_eq s now⟩
  · exact ⟨sortDescBy_perm _ _, sortDescBy_pairwise _ _⟩
  · intro l
    constructor
    · rintro ⟨m, pm, sm, rfl⟩
      exact ⟨m, ⟨pm, sm⟩, rfl⟩
    · rintro ⟨m, ⟨pm, sm⟩, rfl⟩
      exact ⟨m, pm, sm, rfl⟩
  · intro l m hdist hl hm
    rcases hl with ⟨m1, p1, s1, rfl⟩
    rw [sorted_perm_unique (fun q => q.pub_date) (eligibleQuestions s now) m1 m
      hdist p1 hm.1 s1 hm.2]

/-- C10 witness: the amended theorem applied at a concrete store with
distinct publication timestamps, discharging each hypothesis. -/
theorem C10_latest_refines_all_witness :
    (eligibleQuestions (Store.mk [Question.mk 1 "" 1, Question.mk 2 "" 2]
      [Choice.mk 7 1 "" 0, Choice.mk 8 2 "" 0]) 5).Pairwise
        (fun a b => a.pub_date ≠ b.pub_date) ∧
    ([Question.mk 2 "" 2, Question.mk 1 "" 1] : List Question) =
      ([Question.mk 2 "" 2, Question.mk 1 "" 1] : List Question).take 5 :=
  ⟨by decide,
   (C10_latest_refines_all (Store.mk [Question.mk 1 "" 1, Question.mk 2 "" 2]
      [Choice.mk 7 1 "" 0, Choice.mk 8 2 "" 0]) 5).2.2.2
     [Question.mk 2 "" 2, Question.mk 1 "" 1]
     [Question.mk 2 "" 2, Question.mk 1 "" 1]
     (by decide)
     ⟨[Question.mk 2 "" 2, Question.mk 1 "" 1], by decide, by decide, rfl⟩
     ⟨by decide, by decide⟩⟩

/-- C7 counterexample: with two eligible questions of equal vote sums,
the ordering contract of `order_by('-votes')` (which fixes no order
between rows with equal keys) admits two different popular outputs for
the same store, so the full output order is not determined. -/
theorem C7_determinism_counterexample :
    ¬ (∀ l1 l2 : List Question,
        popularAdmissible (Store.mk [Question.mk 1 "" 0, Question.mk 2 "" 0]
          [Choice.mk 7 1 "" 0, Choice.mk 8 2 "" 0]) 0 l1 →
        popularAdmissible (Store.mk [Question.mk 1 "" 0, Question.mk 2 "" 0]
          [Choice.mk 7 1 "" 0, Choice.mk 8 2 "" 0]) 0 l2 →
        l1 = l2) := by
  intro hdet
  have h12 := hdet [Question.mk 1 "" 0, Question.mk 2 "" 0]
      [Question.mk 2 "" 0, Question.mk 1 "" 0]
      ⟨[Question.mk 1 "" 0, Question.mk 2 "" 0], by decide, by decide, rfl⟩
      ⟨[Question.mk 2 "" 0, Question.mk 1 "" 0], by decide, by decide, rfl⟩
  exact absurd h12 (by decide)

/-- C7 amended: the popular output is deterministic only up to the order
of questions with equal vote sums: whenever the eligible questions have
pairwise distinct sums, every two admissible outputs coincide. -/
theorem C7_determinism_amended (s : Store) (now : Int)
    (hdist : (eligibleQuestions s now).Pairwise
      (fun a b => votesSum s a ≠ votesSum s b))
    (l1 l2 : List Question)
    (h1 : popularAdmissible s now l1) (h2 : popularAdmissible s now l2) :
    l1 = l2 := by
  rcases h1 with ⟨m1, p1, s1, rfl⟩
  rcases h2 with ⟨m2, p2, s2, rfl⟩
  rw [sorted_perm_unique (fun q => votesSum s q) (eligibleQuestions s now) m1 m2
    hdist p1 p2 s1 s2]

/-- C7 witness: on a store whose eligible questions have pairwise
distinct vote sums, the amended theorem is applied to two admissible
outputs. -/
theorem C7_determinism_amended_witness :
    popularAdmissible (Store.mk [Question.mk 1 "" 0, Question.mk 2 "" 0]
      [Choice.mk 7 1 "" 1, Choice.mk 8 2 "" 2]) 0
      [Question.mk 2 "" 0, Question.mk 1 "" 0] ∧
    ([Question.mk 2 "" 0, Question.mk 1 "" 0] : List Question) =
      [Question.mk 2 "" 0, Question.mk 1 "" 0] :=
  ⟨⟨[Question.mk 2 "" 0, Question.mk 1 "" 0], by decide, by decide, rfl⟩,
   C7_determinism_amended
     (Store.mk [Question.mk 1 "" 0, Question.mk 2 "" 0]
       [Choice.mk 7 1 "" 1, Choice.mk 8 2 "" 2]) 0 (by decide)
     [Question.mk 2 "" 0, Question.mk 1 "" 0]
     [Question.mk 2 "" 0, Question.mk 1 "" 0]
     ⟨[Question.mk 2 "" 0, Question.mk 1 "" 0], by decide, by decide, rfl⟩
     ⟨[Question.mk 2 "" 0, Question.mk 1 "" 0], by decide, by decide, rfl⟩⟩

end Polls
